import Mathlib

/-
Verification development for the real-time voice mediation subsystem
(src/src/server/voice-realtime.ts).  The data model and the pure/stateful
operations the properties talk about are shallowly embedded below: machine
integers become Nat/Int, PCM-16 sample buffers become List Int, JavaScript
Map objects become association lists keyed by the same string keys the
source builds, and asynchronous collaborators (STT, LLM, TTS, decoding)
become explicit function parameters returning Except/Option.  Media-engine
handles (peer connection, audio sink/source, timers) carry no data relevant
to the stated properties and are omitted from the records; the doc comment
of each definition names the source function it embeds.
-/

set_option maxRecDepth 100000

namespace VoiceRealtime

/-- Source constant TURN_SILENCE_MS = 2000 (silence hangover, ms). -/
def TURN_SILENCE_MS : Int := 2000

/-- Source constant TURN_MIN_MS = 500 (minimum utterance, ms). -/
def TURN_MIN_MS : Nat := 500

/-- Source constant TURN_MAX_MS = 18_000 (maximum utterance, ms). -/
def TURN_MAX_MS : Nat := 18000

/-- Source constant MAX_CHAT_HISTORY = 250. -/
def MAX_CHAT_HISTORY : Nat := 250

/-- Source constant PLAYBACK_SAMPLE_RATE = 48_000. -/
def PLAYBACK_SAMPLE_RATE : Nat := 48000

/-- Source constant PLAYBACK_FRAME_MS = 10. -/
def PLAYBACK_FRAME_MS : Nat := 10

/-- Source constant MAX_PENDING_SERVER_CANDIDATES = 80. -/
def MAX_PENDING_SERVER_CANDIDATES : Nat := 80

/-- Source type TurnSegment: a finalised utterance awaiting the pipeline. -/
structure TurnSegment where
  samples : List Int
  sampleRate : Nat
deriving DecidableEq

/-- Source type PlaybackItem: one queued outbound audio item. -/
structure PlaybackItem where
  samples : List Int
  sampleRate : Nat
  cursor : Nat
deriving DecidableEq

/-- Source type VadState (times are millisecond clock readings). -/
structure VadState where
  inSpeech : Bool
  lastVoiceAt : Int
  utteranceStartedAt : Int
  utteranceSampleRate : Nat
  utteranceSamples : Nat
  utteranceFrames : List (List Int)
  preRollFrames : List (List Int)
deriving DecidableEq

/-- Chat entry roles from the source ChatEntry type. -/
inductive ChatRole where
  | user
  | assistant
  | system
deriving DecidableEq

/-- Source type ChatEntry. -/
structure ChatEntry where
  role : ChatRole
  message : String
  timestamp : String
deriving DecidableEq

/-- RTCIceCandidateInit as validated by asIceCandidate: the candidate
string is the only field the buffering logic depends on. -/
structure IceCandidateInit where
  candidate : String
deriving DecidableEq

/-- Source type ServerCallSession, restricted to its data fields; the
wrtc handles (pc, sink, source, sourceTrack, playbackTimer) are engine
resources with no bearing on the stated properties. -/
structure ServerCallSession where
  roomId : String
  userPeerId : String
  botPeerId : String
  vad : VadState
  turnQueue : List TurnSegment
  processingTurn : Bool
  lastTranscript : String
  lastTranscriptAt : Int
  playbackQueue : List PlaybackItem
deriving DecidableEq

/-- Signal event discriminator (source SignalEvent.type). -/
inductive SignalType where
  | offer
  | answer
  | candidate
  | bye
  | chat
  | system
  | assistant
deriving DecidableEq

/-- Source type SignalEvent; the opaque payload and the timestamp play no
role in routing and are omitted.  The source fields named from and to are
spelled fromPeer and toPeer because those words are reserved in Lean. -/
structure SignalEvent where
  type : SignalType
  fromPeer : String
  toPeer : Option String
  roomId : String
deriving DecidableEq

/-- One registered SSE subscriber: the (roomId, peerId) it registered
under plus an opaque handle distinguishing multiple streams. -/
structure Subscriber where
  roomId : String
  peerId : String
  handle : Nat
deriving DecidableEq

/-- Source roomPeerKey: string key for the session and pending tables. -/
def roomPeerKey (roomId peerId : String) : String :=
  roomId ++ "::" ++ peerId

/-- Source subscriberKey: string key for the subscriber table. -/
def subscriberKey (peerId roomId : String) : String :=
  roomId ++ "::" ++ peerId

/-- JavaScript Map.get on an association list (first binding wins; the
source maps always hold at most one binding per key). -/
def mapGet {α : Type} (m : List (String × α)) (key : String) : Option α :=
  (m.find? (fun p => p.1 == key)).map (fun p => p.2)

/-- JavaScript Map.set: replace in place if the key is bound, else append. -/
def mapSet {α : Type} (m : List (String × α)) (key : String) (v : α) :
    List (String × α) :=
  if (m.find? (fun p => p.1 == key)).isSome then
    m.map (fun p => if p.1 == key then (key, v) else p)
  else
    m ++ [(key, v)]

/-- JavaScript Map.delete. -/
def mapDelete {α : Type} (m : List (String × α)) (key : String) :
    List (String × α) :=
  m.filter (fun p => !(p.1 == key))

/-- Source isServerBotPeer: BOT_PEER_PREFIX test. -/
def isServerBotPeer (peerId : String) : Bool :=
  peerId.startsWith "friday-voice-bot-"

/-- JavaScript truthiness of the optional to field (absent and the empty
string are both falsy). -/
def toIsTruthy : Option String → Bool
  | none => false
  | some s => !(s == "")

/-- Source emit: look up the subscriber set under subscriberKey and
enqueue to every member.  Modelled as the list of subscribers that
receive the event. -/
def emitTargets (subs : List Subscriber) (peerId roomId : String) :
    List Subscriber :=
  subs.filter (fun r => subscriberKey r.peerId r.roomId == subscriberKey peerId roomId)

/-- Source relaySignal, restricted to its fan-out behaviour: which
subscribers the relayed event itself is enqueued to.  The bye-handling
closeSession calls and the server-bot dispatch mutate sessions but never
enqueue the relayed event to any subscriber. -/
def relaySignalTargets (subs : List Subscriber) (e : SignalEvent) :
    List Subscriber :=
  if toIsTruthy e.toPeer && isServerBotPeer (e.toPeer.getD "") then []
  else if !(toIsTruthy e.toPeer) then []
  else emitTargets subs (e.toPeer.getD "") e.roomId

/-- Source concatInt16: concatenate PCM frames into one contiguous buffer. -/
def concatInt16 (frames : List (List Int)) : List Int :=
  frames.foldl (fun acc frame => acc ++ frame) []

/-- Source resetVad: return the VAD to idle (the pre-roll ring survives). -/
def resetVad (vad : VadState) : VadState :=
  { vad with
    inSpeech := false
    lastVoiceAt := 0
    utteranceStartedAt := 0
    utteranceSampleRate := 0
    utteranceSamples := 0
    utteranceFrames := [] }

/-- The queue update of source enqueueTurn: push, then shift the oldest
entry whenever the length exceeds 3. -/
def turnQueuePush (queue : List TurnSegment) (turn : TurnSegment) :
    List TurnSegment :=
  let pushed := queue ++ [turn]
  if 3 < pushed.length then pushed.tail else pushed

/-- Source enqueueTurn acting on the session.  The trailing
void drainTurnQueue(session) kick is the asynchronous worker modelled by
drainTurnQueue below. -/
def enqueueTurn (session : ServerCallSession) (turn : TurnSegment) :
    ServerCallSession :=
  { session with turnQueue := turnQueuePush session.turnQueue turn }

/-- The utteranceMs computation of maybeFinalizeUtterance, in exact
rational arithmetic: samples / sampleRate * 1000. -/
def utteranceMsOf (vad : VadState) : ℚ :=
  ((vad.utteranceSamples : ℚ) / (vad.utteranceSampleRate : ℚ)) * 1000

/-- The finalisation condition of maybeFinalizeUtterance, written
positively: utteranceMs ≥ max utterance, or silence ≥ hangover and
utteranceMs ≥ min utterance. -/
def shouldFinalize (vad : VadState) (now : Int) : Prop :=
  (TURN_MAX_MS : ℚ) ≤ utteranceMsOf vad ∨
    (TURN_SILENCE_MS ≤ now - vad.lastVoiceAt ∧ (TURN_MIN_MS : ℚ) ≤ utteranceMsOf vad)

instance (vad : VadState) (now : Int) : Decidable (shouldFinalize vad now) := by
  unfold shouldFinalize
  exact inferInstance

/-- Source maybeFinalizeUtterance.  The emitSystem voice_turn_detected
notification carries no session state and is not modelled. -/
def maybeFinalizeUtterance (session : ServerCallSession) (now : Int) :
    ServerCallSession :=
  let vad := session.vad
  if vad.inSpeech = false then session
  else if vad.utteranceSampleRate = 0 ∨ vad.utteranceSamples = 0 then session
  else
    let utteranceMs : ℚ := utteranceMsOf vad
    let silenceMs : Int := now - vad.lastVoiceAt
    if utteranceMs < (TURN_MAX_MS : ℚ) ∧
        (silenceMs < TURN_SILENCE_MS ∨ utteranceMs < (TURN_MIN_MS : ℚ)) then
      session
    else
      let samples := concatInt16 vad.utteranceFrames
      let sampleRate := vad.utteranceSampleRate
      let session2 := { session with vad := resetVad vad }
      if samples.length = 0 ∨ utteranceMs < (TURN_MIN_MS : ℚ) then session2
      else enqueueTurn session2 { samples := samples, sampleRate := sampleRate }

/-- Source frameSize = Math.round(PLAYBACK_SAMPLE_RATE * PLAYBACK_FRAME_MS
/ 1000); the division is exact, so Nat division agrees (480). -/
def playbackFrameSamples : Nat :=
  PLAYBACK_SAMPLE_RATE * PLAYBACK_FRAME_MS / 1000

/-- The padding step of the playback loop: a frame shorter than 480
samples is copied into a fresh zeroed 480-sample buffer. -/
def padToFrame (raw : List Int) : List Int :=
  if raw.length < playbackFrameSamples then
    raw ++ List.replicate (playbackFrameSamples - raw.length) 0
  else raw

/-- One tick of the interval callback installed by startPlaybackLoop:
returns the queue afterwards and the frame pushed to the audio source on
this tick, if any.  An empty queue stops the timer and emits nothing; an
exhausted head item (cursor past the end) is shifted off and nothing is
emitted on that tick; otherwise the slice from cursor to
nextEnd = min(length, cursor + 480) is cut, the cursor advances to
nextEnd, and the slice is zero-padded to 480 samples. -/
def playbackTick (queue : List PlaybackItem) :
    List PlaybackItem × Option (List Int) :=
  match queue with
  | [] => ([], none)
  | current :: rest =>
    if current.samples.length ≤ current.cursor then (rest, none)
    else
      ({ current with
          cursor := min current.samples.length (current.cursor + playbackFrameSamples) } :: rest,
        some (padToFrame ((current.samples.drop current.cursor).take
          (min current.samples.length (current.cursor + playbackFrameSamples) - current.cursor))))

/-- Source enqueueAssistantAudio acting on the playback queue: empty
audio is dropped, otherwise an item with cursor 0 is appended (and the
pacer started). -/
def enqueueAssistantAudio (queue : List PlaybackItem) (samples : List Int) :
    List PlaybackItem :=
  if samples.length = 0 then queue
  else queue ++ [{ samples := samples, sampleRate := PLAYBACK_SAMPLE_RATE, cursor := 0 }]

/-- The log update of source addChatEntry: append, then slice(-250),
i.e. keep the most recent 250 entries. -/
def addChatLog (log : List ChatEntry) (entry : ChatEntry) : List ChatEntry :=
  (log ++ [entry]).drop ((log ++ [entry]).length - MAX_CHAT_HISTORY)

/-- Source addChatEntry on the roomChat map. -/
def addChatEntry (roomId : String) (entry : ChatEntry)
    (roomChat : List (String × List ChatEntry)) :
    List (String × List ChatEntry) :=
  let existing := (mapGet roomChat roomId).getD []
  mapSet roomChat roomId (addChatLog existing entry)

/-- Source getChatHistory. -/
def getChatHistory (roomId : String)
    (roomChat : List (String × List ChatEntry)) : List ChatEntry :=
  (mapGet roomChat roomId).getD []

/-- The process-wide mutable tables closeSession operates on. -/
structure GlobalState where
  serverSessions : List (String × ServerCallSession)
  pendingServerCandidates : List (String × List IceCandidateInit)
deriving DecidableEq

/-- Source closeSession.  Returns the new tables plus a flag recording
whether the resource teardown (sink stop, playback timer clear, playback
queue clear, VAD reset, track stop, peer-connection close) ran; the
teardown only touches the session object just removed from the table. -/
def closeSession (roomId userPeerId : String) (st : GlobalState) :
    GlobalState × Bool :=
  let key := roomPeerKey roomId userPeerId
  match mapGet st.serverSessions key with
  | none => (st, false)
  | some _ =>
    ({ serverSessions := mapDelete st.serverSessions key,
       pendingServerCandidates := mapDelete st.pendingServerCandidates key }, true)

/-- The pending-candidate buffer update in handleServerBotSignal when no
session exists yet: push, then shift the oldest entry whenever the length
exceeds 80. -/
def pendingPush (queue : List IceCandidateInit) (c : IceCandidateInit) :
    List IceCandidateInit :=
  let pushed := queue ++ [c]
  if MAX_PENDING_SERVER_CANDIDATES < pushed.length then pushed.tail else pushed

/-- The operations the source ever performs on one session's turn queue:
the capped push of enqueueTurn, and the shift of the drain loop. -/
inductive TurnQueueOp where
  | enqueueOp (turn : TurnSegment)
  | shiftOp
deriving DecidableEq

/-- Apply one turn-queue operation. -/
def applyTurnQueueOp (queue : List TurnSegment) : TurnQueueOp → List TurnSegment
  | TurnQueueOp.enqueueOp turn => turnQueuePush queue turn
  | TurnQueueOp.shiftOp => queue.tail

/-- Turn queue reached from empty by a sequence of operations. -/
def turnQueueAfter (ops : List TurnQueueOp) : List TurnSegment :=
  ops.foldl applyTurnQueueOp []

/-- The operations the source ever performs on one key's pending-candidate
buffer: the capped push, and wholesale consumption (the offer path drains
and deletes the buffer; closeSession deletes it). -/
inductive PendingOp where
  | bufferOp (c : IceCandidateInit)
  | consumeOp
deriving DecidableEq

/-- Apply one pending-buffer operation. -/
def applyPendingOp (queue : List IceCandidateInit) : PendingOp → List IceCandidateInit
  | PendingOp.bufferOp c => pendingPush queue c
  | PendingOp.consumeOp => []

/-- Pending buffer reached from empty by a sequence of operations. -/
def pendingAfter (ops : List PendingOp) : List IceCandidateInit :=
  ops.foldl applyPendingOp []

/-- Little-endian unsigned 16-bit bytes (Buffer.writeUInt16LE). -/
def u16le (n : Nat) : List Nat :=
  [n % 256, n / 256 % 256]

/-- Little-endian unsigned 32-bit bytes (Buffer.writeUInt32LE). -/
def u32le (n : Nat) : List Nat :=
  [n % 256, n / 256 % 256, n / 65536 % 256, n / 16777216 % 256]

/-- Little-endian two's-complement bytes of one sample
(DataView.setInt16 with littleEndian = true). -/
def int16le (v : Int) : List Nat :=
  u16le (v % 65536).toNat

/-- The sample area written by the loop in createWavFromPcm16Mono. -/
def pcm16leBytes : List Int → List Nat
  | [] => []
  | v :: rest => int16le v ++ pcm16leBytes rest

/-- Source createWavFromPcm16Mono: the exact byte sequence the writes
produce, in offset order (RIFF chunk, WAVE, fmt chunk with PCM format 1,
one channel, the sample rate, byte rate, block align 2, 16 bits per
sample, then the data chunk). -/
def createWavFromPcm16Mono (samples : List Int) (sampleRate : Nat) : List Nat :=
  let byteLength := samples.length * 2
  [82, 73, 70, 70] ++ u32le (36 + byteLength) ++
  [87, 65, 86, 69] ++
  [102, 109, 116, 32] ++ u32le 16 ++
  u16le 1 ++ u16le 1 ++ u32le sampleRate ++ u32le (sampleRate * 2) ++
  u16le 2 ++ u16le 16 ++
  [100, 97, 116, 97] ++ u32le byteLength ++
  pcm16leBytes samples

/-- Little-endian signed 16-bit read (DataView.getInt16). -/
def int16OfLe (lo hi : Nat) : Int :=
  if 32768 ≤ lo + 256 * hi then ((lo + 256 * hi : Nat) : Int) - 65536
  else ((lo + 256 * hi : Nat) : Int)

/-- Decode a little-endian PCM-16 byte stream back to samples; fails on
an odd byte count. -/
def decodePcm16le : List Nat → Option (List Int)
  | [] => some []
  | lo :: hi :: rest => (decodePcm16le rest).map (fun tl => int16OfLe lo hi :: tl)
  | _ => none

/-- Modelled from the spec: the round-trip law packages PCM as a WAV and
parses it back, but the repository contains no WAV parser, so this is the
standard parse of the fixed 44-byte mono PCM-16 layout: verify the RIFF
and WAVE markers, the PCM format tag, the mono channel count, the 16-bit
sample width and the data marker, then decode everything after byte 44. -/
def parseWavPcm16Mono (bytes : List Nat) : Option (List Int) :=
  if bytes.take 4 = [82, 73, 70, 70] ∧
      (bytes.drop 8).take 4 = [87, 65, 86, 69] ∧
      (bytes.drop 12).take 4 = [102, 109, 116, 32] ∧
      (bytes.drop 20).take 2 = u16le 1 ∧
      (bytes.drop 22).take 2 = u16le 1 ∧
      (bytes.drop 34).take 2 = u16le 16 ∧
      (bytes.drop 36).take 4 = [100, 97, 116, 97] then
    decodePcm16le (bytes.drop 44)
  else none

/-- The de-duplication step of drainTurnQueue for one turn whose trimmed
transcript is non-empty: drop the turn (no chat entries appended, no
assistant event) when the transcript repeats within 2500 ms, otherwise
record it and proceed.  The Bool reports whether the turn proceeds to the
reply pipeline and the assistant event. -/
def processTranscribedTurn (session : ServerCallSession) (transcript : String)
    (now : Int) : ServerCallSession × Bool :=
  if transcript = session.lastTranscript ∧ now - session.lastTranscriptAt < 2500 then
    (session, false)
  else
    ({ session with lastTranscript := transcript, lastTranscriptAt := now }, true)

/-- Failure points of the body of the drain loop: transcript, LLM, TTS
and decode processing can all raise. -/
inductive TurnError where
  | sttFailed
  | llmFailed
  | ttsFailed
  | decodeFailed
deriving DecidableEq

/-- The while loop of drainTurnQueue: shift a turn, hand it to the
per-turn processing (an arbitrary collaborator pipeline that may raise),
and stop when the queue is empty, an exception escapes, or the fuel runs
out. -/
def drainLoop
    (process : TurnSegment → ServerCallSession → Except TurnError ServerCallSession) :
    Nat → ServerCallSession → ServerCallSession
  | 0, session => session
  | fuel + 1, session =>
    match session.turnQueue with
    | [] => session
    | turn :: rest =>
      match process turn { session with turnQueue := rest } with
      | Except.error _ => { session with turnQueue := rest }
      | Except.ok next => drainLoop process fuel next

/-- Source drainTurnQueue: the processingTurn single-flight guard, the
loop, and the finally block that clears the guard on every exit path,
exceptions included. -/
def drainTurnQueue
    (process : TurnSegment → ServerCallSession → Except TurnError ServerCallSession)
    (fuel : Nat) (session : ServerCallSession) : ServerCallSession :=
  if session.processingTurn then session
  else
    let finished := drainLoop process fuel { session with processingTurn := true }
    { finished with processingTurn := false }

/-- Source literal fallback reply text. -/
def fallbackReplyText : String := "Comms degraded. Retry in a moment."

/-- Result record of synthesizeAssistantReply (audioBase64 is a pure
re-encoding of audioBuffer and is omitted). -/
structure AssistantReply where
  text : String
  audioBuffer : Option (List Nat)
  audioFormat : String
deriving DecidableEq

/-- The TTS stage of synthesizeAssistantReply: tryJarvisTtsBuffer first
(format ogg), then tryOpenAiTtsBuffer with its reported format, else no
audio. -/
def ttsChain (jarvisTts : String → Option (List Nat))
    (openAiTts : String → Option (List Nat × String)) (text : String) :
    Option (List Nat) × String :=
  match jarvisTts text with
  | some buffer => (some buffer, "ogg")
  | none =>
    match openAiTts text with
    | some pair => (some pair.1, pair.2)
    | none => (none, "ogg")

/-- Source synthesizeAssistantReply with the collaborators abstracted:
requestLlmReply may raise (error or timeout), in which case the literal
fallback text is substituted and speech synthesis still runs on it. -/
def synthesizeAssistantReply (llm : String → Except String String)
    (jarvisTts : String → Option (List Nat))
    (openAiTts : String → Option (List Nat × String)) (input : String) :
    AssistantReply :=
  let text :=
    match llm input with
    | Except.ok t => t
    | Except.error _ => fallbackReplyText
  let audio2 := ttsChain jarvisTts openAiTts text
  { text := text, audioBuffer := audio2.1, audioFormat := audio2.2 }

/-- An idle VAD, as built by createServerSession. -/
def idleVad : VadState := ⟨false, 0, 0, 0, 0, [], []⟩

/-- A freshly created session (createServerSession initial values). -/
def baseSession : ServerCallSession :=
  { roomId := "ops-room", userPeerId := "peer-1",
    botPeerId := "friday-voice-bot-server", vad := idleVad, turnQueue := [],
    processingTurn := false, lastTranscript := "", lastTranscriptAt := 0,
    playbackQueue := [] }

/-- A concrete in-speech VAD: 5 samples at 8 Hz is a 625 ms utterance. -/
def speechVad : VadState :=
  { inSpeech := true, lastVoiceAt := 100, utteranceStartedAt := 50,
    utteranceSampleRate := 8, utteranceSamples := 5,
    utteranceFrames := [[1, 2], [3, 4, 5]], preRollFrames := [] }

/-- Concrete one-sample turn segments. -/
def seg0 : TurnSegment := ⟨[0], 48000⟩

/-- A second concrete turn segment. -/
def seg1 : TurnSegment := ⟨[1], 48000⟩

/-- A concrete ICE candidate. -/
def cand0 : IceCandidateInit := ⟨"candidate:0"⟩

/-- A turn pipeline whose LLM stage always raises. -/
def failingProcess :
    TurnSegment → ServerCallSession → Except TurnError ServerCallSession :=
  fun _ _ => Except.error TurnError.llmFailed

/-- An LLM collaborator that always fails (error or timeout). -/
def failingLlm : String → Except String String := fun _ => Except.error "timeout"

/-- A local TTS binary that always fails. -/
def noJarvisTts : String → Option (List Nat) := fun _ => none

/-- A remote TTS service that returns an mp3 blob. -/
def mp3OpenAiTts : String → Option (List Nat × String) :=
  fun _ => some ([7, 7], "mp3")

/-- Global tables holding one session and one pending candidate. -/
def stWithSession : GlobalState :=
  ⟨[(roomPeerKey "ops-room" "peer-1", baseSession)],
   [(roomPeerKey "ops-room" "peer-1", [cand0])]⟩

/-- A concrete subscriber. -/
def subW : Subscriber := ⟨"roomA", "peerB", 7⟩

/-- A concrete event addressed to that subscriber. -/
def eventW : SignalEvent := ⟨SignalType.chat, "peerC", some "peerB", "roomA"⟩

/- ---------------------------------------------------------------------
Helper lemmas (shared).
--------------------------------------------------------------------- -/

theorem turnQueuePush_length_le (queue : List TurnSegment) (turn : TurnSegment)
    (h : queue.length ≤ 3) : (turnQueuePush queue turn).length ≤ 3 := by
  unfold turnQueuePush
  by_cases h4 : 3 < (queue ++ [turn]).length
  · rw [if_pos h4]
    rw [List.length_tail]
    simp [List.length_append] at h4 ⊢
    omega
  · rw [if_neg h4]
    omega

theorem pendingPush_length_le (queue : List IceCandidateInit) (c : IceCandidateInit)
    (h : queue.length ≤ 80) : (pendingPush queue c).length ≤ 80 := by
  unfold pendingPush MAX_PENDING_SERVER_CANDIDATES
  by_cases h4 : 80 < (queue ++ [c]).length
  · rw [if_pos h4]
    rw [List.length_tail]
    simp [List.length_append] at h4 ⊢
    omega
  · rw [if_neg h4]
    omega

theorem foldl_turnQueue_le (ops : List TurnQueueOp) :
    ∀ queue : List TurnSegment, queue.length ≤ 3 →
      (ops.foldl applyTurnQueueOp queue).length ≤ 3 := by
  induction ops with
  | nil => intro q h; simpa using h
  | cons op rest ih =>
    intro q h
    rw [List.foldl_cons]
    apply ih
    cases op with
    | enqueueOp t => exact turnQueuePush_length_le q t h
    | shiftOp =>
      show q.tail.length ≤ 3
      rw [List.length_tail]
      omega

theorem foldl_pending_le (ops : List PendingOp) :
    ∀ queue : List IceCandidateInit, queue.length ≤ 80 →
      (ops.foldl applyPendingOp queue).length ≤ 80 := by
  induction ops with
  | nil => intro q h; simpa using h
  | cons op rest ih =>
    intro q h
    rw [List.foldl_cons]
    apply ih
    cases op with
    | bufferOp c => exact pendingPush_length_le q c h
    | consumeOp => show (List.length []) ≤ 80; simp

theorem mapGet_mapDelete {α : Type} (m : List (String × α)) (key : String) :
    mapGet (mapDelete m key) key = none := by
  unfold mapGet mapDelete
  have hfind : ((m.filter (fun p => !(p.1 == key))).find? (fun p => p.1 == key)) = none := by
    rw [List.find?_eq_none]
    intro x hx
    have hmem := List.mem_filter.mp hx
    intro hcontra
    rw [hcontra] at hmem
    simp at hmem
  rw [hfind]
  rfl

theorem addChatLog_drop (L : List ChatEntry) (e : ChatEntry) :
    addChatLog (L.drop (L.length - MAX_CHAT_HISTORY)) e =
      (L ++ [e]).drop ((L ++ [e]).length - MAX_CHAT_HISTORY) := by
  unfold addChatLog
  have hk : L.length - MAX_CHAT_HISTORY ≤ L.length := Nat.sub_le _ _
  rw [← List.drop_append_of_le_length hk]
  rw [List.drop_drop]
  congr 1
  simp only [List.length_drop, List.length_append, List.length_cons, List.length_nil]
  omega

theorem chatFold_drop (es : List ChatEntry) : ∀ L : List ChatEntry,
    es.foldl addChatLog (L.drop (L.length - MAX_CHAT_HISTORY)) =
      (L ++ es).drop ((L ++ es).length - MAX_CHAT_HISTORY) := by
  induction es with
  | nil => intro L; simp
  | cons e rest ih =>
    intro L
    rw [List.foldl_cons, addChatLog_drop, ih (L ++ [e])]
    simp [List.append_assoc]

theorem addChatEntry_singleton (roomId : String) (e : ChatEntry) (l : List ChatEntry) :
    addChatEntry roomId e [(roomId, l)] = [(roomId, addChatLog l e)] := by
  have hfind : ([(roomId, l)].find? (fun p => p.1 == roomId)) = some (roomId, l) :=
    List.find?_cons_of_pos _ (by simp)
  unfold addChatEntry mapGet mapSet
  rw [hfind]
  simp

theorem chat_state_fold (roomId : String) (es : List ChatEntry) : ∀ l : List ChatEntry,
    es.foldl (fun st e => addChatEntry roomId e st) [(roomId, l)] =
      [(roomId, es.foldl addChatLog l)] := by
  induction es with
  | nil => intro l; rfl
  | cons e rest ih =>
    intro l
    rw [List.foldl_cons, addChatEntry_singleton, ih (addChatLog l e), List.foldl_cons]

theorem int16le_roundtrip (v : Int) (h1 : -32768 ≤ v) (h2 : v ≤ 32767) :
    int16OfLe ((v % 65536).toNat % 256) ((v % 65536).toNat / 256 % 256) = v := by
  unfold int16OfLe
  by_cases hc : 32768 ≤ (v % 65536).toNat % 256 + 256 * ((v % 65536).toNat / 256 % 256)
  · rw [if_pos hc]
    omega
  · rw [if_neg hc]
    omega

theorem decodePcm16le_pcm16leBytes (samples : List Int)
    (h : ∀ v ∈ samples, -32768 ≤ v ∧ v ≤ 32767) :
    decodePcm16le (pcm16leBytes samples) = some samples := by
  induction samples with
  | nil => rfl
  | cons v rest ih =>
    have hv := h v (List.mem_cons_self _ _)
    have hrest : ∀ x ∈ rest, -32768 ≤ x ∧ x ≤ 32767 :=
      fun x hx => h x (List.mem_cons_of_mem _ hx)
    show decodePcm16le (int16le v ++ pcm16leBytes rest) = some (v :: rest)
    have hb : int16le v ++ pcm16leBytes rest =
        ((v % 65536).toNat % 256) :: ((v % 65536).toNat / 256 % 256) ::
          pcm16leBytes rest := rfl
    rw [hb]
    simp only [decodePcm16le]
    rw [ih hrest]
    simp [int16le_roundtrip v hv.1 hv.2]

theorem pcm16leBytes_length (samples : List Int) :
    (pcm16leBytes samples).length = 2 * samples.length := by
  induction samples with
  | nil => rfl
  | cons v rest ih =>
    show (int16le v ++ pcm16leBytes rest).length = 2 * (v :: rest).length
    rw [List.length_append, ih]
    simp [int16le, u16le]
    omega

/- ---------------------------------------------------------------------
Claim theorems.
--------------------------------------------------------------------- -/

set_option maxHeartbeats 2000000 in
/-- C7: packaging PCM-16 mono samples as a WAV yields a 44-byte standard
little-endian RIFF/WAVE header — PCM format tag 1, one channel, 16 bits
per sample, the given sample rate — followed by the little-endian sample
bytes, and parsing the file back recovers the samples exactly. -/
theorem createWav_roundtrip (samples : List Int) (sampleRate : Nat)
    (h : ∀ v ∈ samples, -32768 ≤ v ∧ v ≤ 32767) :
    ((createWavFromPcm16Mono samples sampleRate).length = 44 + 2 * samples.length ∧
      (createWavFromPcm16Mono samples sampleRate).take 4 = [82, 73, 70, 70] ∧
      ((createWavFromPcm16Mono samples sampleRate).drop 8).take 4 = [87, 65, 86, 69] ∧
      ((createWavFromPcm16Mono samples sampleRate).drop 20).take 2 = u16le 1 ∧
      ((createWavFromPcm16Mono samples sampleRate).drop 22).take 2 = u16le 1 ∧
      ((createWavFromPcm16Mono samples sampleRate).drop 24).take 4 = u32le sampleRate ∧
      ((createWavFromPcm16Mono samples sampleRate).drop 34).take 2 = u16le 16 ∧
      (createWavFromPcm16Mono samples sampleRate).drop 44 = pcm16leBytes samples) ∧
    parseWavPcm16Mono (createWavFromPcm16Mono samples sampleRate) = some samples := by
  have hlen : (createWavFromPcm16Mono samples sampleRate).length =
      44 + 2 * samples.length := by
    simp [createWavFromPcm16Mono, u32le, u16le, List.length_append, pcm16leBytes_length]
    omega
  constructor
  · exact ⟨hlen, rfl, rfl, rfl, rfl, rfl, rfl, rfl⟩
  · unfold parseWavPcm16Mono
    rw [if_pos]
    · show decodePcm16le ((createWavFromPcm16Mono samples sampleRate).drop 44) =
        some samples
      rw [show (createWavFromPcm16Mono samples sampleRate).drop 44 =
        pcm16leBytes samples from rfl]
      exact decodePcm16le_pcm16leBytes samples h
    · exact ⟨rfl, rfl, rfl, rfl, rfl, rfl, rfl⟩

/-- Witness for C7: a concrete four-sample buffer, extreme values
included, survives the WAV round trip byte-identically. -/
theorem createWav_roundtrip_witness :
    (∀ v ∈ ([1000, -1000, 32767, -32768] : List Int), -32768 ≤ v ∧ v ≤ 32767) ∧
    parseWavPcm16Mono (createWavFromPcm16Mono [1000, -1000, 32767, -32768] 48000) =
      some [1000, -1000, 32767, -32768] :=
  ⟨by decide, (createWav_roundtrip [1000, -1000, 32767, -32768] 48000 (by decide)).2⟩

/-- C6: from an empty store, any sequence of addChatEntry calls for a
room leaves getChatHistory equal to the suffix of the appended entries of
length at most 250 — order preserved, oldest evicted first once more than
250 entries have been added. -/
theorem chat_history_bound (roomId : String) (entries : List ChatEntry) :
    getChatHistory roomId
        (entries.foldl (fun st e => addChatEntry roomId e st) []) =
      entries.drop (entries.length - MAX_CHAT_HISTORY) ∧
    (getChatHistory roomId
        (entries.foldl (fun st e => addChatEntry roomId e st) [])).length ≤
      MAX_CHAT_HISTORY := by
  have hmain : getChatHistory roomId
      (entries.foldl (fun st e => addChatEntry roomId e st) []) =
      entries.drop (entries.length - MAX_CHAT_HISTORY) := by
    cases entries with
    | nil => rfl
    | cons e rest =>
      rw [List.foldl_cons]
      have h0 : addChatEntry roomId e [] = [(roomId, [e])] := rfl
      rw [h0, chat_state_fold roomId rest]
      have hg : getChatHistory roomId [(roomId, rest.foldl addChatLog [e])] =
          rest.foldl addChatLog [e] := by
        unfold getChatHistory mapGet
        rw [List.find?_cons_of_pos _ (by simp)]
        rfl
      rw [hg]
      have h2 := chatFold_drop rest [e]
      simpa [MAX_CHAT_HISTORY] using h2
  refine ⟨hmain, ?_⟩
  rw [hmain, List.length_drop]
  omega

/-- C10: every completed invocation of the drain worker leaves
processingTurn false again, whatever the per-turn pipeline does — raise at
the transcript, LLM, TTS or decode stage included — so a later enqueued
turn can always start a new drain. -/
theorem drainTurnQueue_clears_processing
    (process : TurnSegment → ServerCallSession → Except TurnError ServerCallSession)
    (fuel : Nat) (session : ServerCallSession)
    (h : session.processingTurn = false) :
    (drainTurnQueue process fuel session).processingTurn = false := by
  unfold drainTurnQueue
  rw [h]
  simp

/-- Witness for C10: a drain over a non-empty queue whose pipeline raises
on every turn still ends with the guard cleared. -/
theorem drainTurnQueue_clears_processing_witness :
    ({ baseSession with turnQueue := [seg0, seg1] } : ServerCallSession).processingTurn = false ∧
    (drainTurnQueue failingProcess 5
      { baseSession with turnQueue := [seg0, seg1] }).processingTurn = false :=
  ⟨rfl, drainTurnQueue_clears_processing failingProcess 5
    { baseSession with turnQueue := [seg0, seg1] } rfl⟩

/-- C9: when the LLM collaborator fails (error or timeout),
synthesizeAssistantReply substitutes exactly the literal fallback text and
still runs the TTS chain on that text instead of propagating the failure. -/
theorem synthesizeAssistantReply_llm_fallback
    (llm : String → Except String String)
    (jarvisTts : String → Option (List Nat))
    (openAiTts : String → Option (List Nat × String))
    (input errMsg : String)
    (h : llm input = Except.error errMsg) :
    synthesizeAssistantReply llm jarvisTts openAiTts input =
      { text := fallbackReplyText,
        audioBuffer := (ttsChain jarvisTts openAiTts fallbackReplyText).1,
        audioFormat := (ttsChain jarvisTts openAiTts fallbackReplyText).2 } := by
  unfold synthesizeAssistantReply
  rw [h]

/-- Witness for C9: a failing LLM with a failing local TTS yields the
fallback text spoken through the remote TTS. -/
theorem synthesizeAssistantReply_llm_fallback_witness :
    failingLlm "status report" = Except.error "timeout" ∧
    synthesizeAssistantReply failingLlm noJarvisTts mp3OpenAiTts "status report" =
      { text := fallbackReplyText, audioBuffer := some [7, 7], audioFormat := "mp3" } := by
  refine ⟨rfl, ?_⟩
  rw [synthesizeAssistantReply_llm_fallback failingLlm noJarvisTts mp3OpenAiTts
    "status report" "timeout" rfl]
  rfl

/-- C3: a processed turn is dropped (state untouched, no chat entries, no
assistant event) iff its trimmed transcript repeats the session's
lastTranscript within 2500 ms; otherwise lastTranscript/lastTranscriptAt
are updated, so two back-to-back turns with the same transcript inside the
window yield exactly one assistant event. -/
theorem drainTurnQueue_dedup
    (session : ServerCallSession) (transcript : String) (n1 n2 : Int) :
    (transcript = session.lastTranscript ∧ n1 - session.lastTranscriptAt < 2500 →
      processTranscribedTurn session transcript n1 = (session, false)) ∧
    (¬(transcript = session.lastTranscript ∧ n1 - session.lastTranscriptAt < 2500) →
      processTranscribedTurn session transcript n1 =
        ({ session with lastTranscript := transcript, lastTranscriptAt := n1 }, true)) ∧
    (¬(transcript = session.lastTranscript ∧ n1 - session.lastTranscriptAt < 2500) →
      n2 - n1 < 2500 →
      (processTranscribedTurn session transcript n1).2 = true ∧
      (processTranscribedTurn (processTranscribedTurn session transcript n1).1
        transcript n2).2 = false) := by
  refine ⟨fun h => ?_, fun h => ?_, fun h hwin => ?_⟩
  · unfold processTranscribedTurn
    rw [if_pos h]
  · unfold processTranscribedTurn
    rw [if_neg h]
  · have h1 : processTranscribedTurn session transcript n1 =
        ({ session with lastTranscript := transcript, lastTranscriptAt := n1 }, true) := by
      unfold processTranscribedTurn
      rw [if_neg h]
    refine ⟨by rw [h1], ?_⟩
    rw [h1]
    show (processTranscribedTurn _ transcript n2).2 = false
    unfold processTranscribedTurn
    rw [if_pos ⟨rfl, hwin⟩]

/-- Witness for C3: a fresh session hears two identical turns 1400 ms
apart; the first emits, the second is dropped. -/
theorem drainTurnQueue_dedup_witness :
    (processTranscribedTurn baseSession "hello" 1000).2 = true ∧
    (processTranscribedTurn (processTranscribedTurn baseSession "hello" 1000).1
      "hello" 2400).2 = false :=
  (drainTurnQueue_dedup baseSession "hello" 1000 2400).2.2 (by decide) (by decide)

/-- C5: for every sequence of operations the turn queue never exceeds 3
segments and the pending-candidate buffer never exceeds 80 candidates,
and on overflow the oldest entry is the one evicted. -/
theorem queue_bounds_spec :
    (∀ ops : List TurnQueueOp, (turnQueueAfter ops).length ≤ 3) ∧
    (∀ ops : List PendingOp, (pendingAfter ops).length ≤ 80) ∧
    (∀ (q : List TurnSegment) (t : TurnSegment), q.length = 3 →
      turnQueuePush q t = q.tail ++ [t]) ∧
    (∀ (q : List IceCandidateInit) (c : IceCandidateInit), q.length = 80 →
      pendingPush q c = q.tail ++ [c]) := by
  refine ⟨fun ops => foldl_turnQueue_le ops [] (by simp),
          fun ops => foldl_pending_le ops [] (by simp), ?_, ?_⟩
  · intro q t h
    unfold turnQueuePush
    rw [if_pos (by simp [List.length_append]; omega)]
    cases q with
    | nil => simp at h
    | cons a rest => simp
  · intro q c h
    unfold pendingPush MAX_PENDING_SERVER_CANDIDATES
    rw [if_pos (by simp [List.length_append]; omega)]
    cases q with
    | nil => simp at h
    | cons a rest => simp

/-- Witness for C5: a full turn queue evicts its oldest segment on the
fourth enqueue, and a full candidate buffer evicts its oldest candidate. -/
theorem queue_bounds_spec_witness :
    ((List.replicate 3 seg0).length = 3 ∧
      turnQueuePush (List.replicate 3 seg0) seg1 = (List.replicate 3 seg0).tail ++ [seg1]) ∧
    ((List.replicate 80 cand0).length = 80 ∧
      pendingPush (List.replicate 80 cand0) cand0 = (List.replicate 80 cand0).tail ++ [cand0]) :=
  ⟨⟨by decide, queue_bounds_spec.2.2.1 _ _ (by decide)⟩,
   ⟨by decide, queue_bounds_spec.2.2.2 _ _ (by decide)⟩⟩

/-- C8: closeSession is idempotent — the second of two successive calls
for the same (room, user) finds no session, changes neither table and
performs no resource teardown; a call on an absent session is a no-op. -/
theorem closeSession_idempotent (st : GlobalState) (roomId userPeerId : String) :
    closeSession roomId userPeerId (closeSession roomId userPeerId st).1 =
      ((closeSession roomId userPeerId st).1, false) ∧
    (mapGet st.serverSessions (roomPeerKey roomId userPeerId) = none →
      closeSession roomId userPeerId st = (st, false)) := by
  constructor
  · cases hget : mapGet st.serverSessions (roomPeerKey roomId userPeerId) with
    | none => simp [closeSession, hget]
    | some s => simp [closeSession, hget, mapGet_mapDelete]
  · intro h
    simp [closeSession, h]

/-- C1: in speech with a recorded sample rate and at least one utterance
sample, a frame at time now finalises the utterance iff
utteranceMs ≥ 18000 or (now − lastVoiceAt ≥ 2000 and utteranceMs ≥ 500);
on finalisation the frames are concatenated, the VAD resets to idle, and
the segment joins the capped turn queue exactly when the concatenated
buffer is non-empty and utteranceMs ≥ 500; otherwise the session is
untouched. -/
theorem maybeFinalizeUtterance_spec (session : ServerCallSession) (now : Int)
    (hs : session.vad.inSpeech = true)
    (hr : session.vad.utteranceSampleRate ≠ 0)
    (hn : session.vad.utteranceSamples ≠ 0) :
    (¬ shouldFinalize session.vad now → maybeFinalizeUtterance session now = session) ∧
    (shouldFinalize session.vad now →
      maybeFinalizeUtterance session now =
        (if (concatInt16 session.vad.utteranceFrames).length ≠ 0 ∧
            (TURN_MIN_MS : ℚ) ≤ utteranceMsOf session.vad then
          { session with
            vad := resetVad session.vad
            turnQueue := turnQueuePush session.turnQueue
              ⟨concatInt16 session.vad.utteranceFrames, session.vad.utteranceSampleRate⟩ }
        else { session with vad := resetVad session.vad })) ∧
    ((maybeFinalizeUtterance session now).vad.inSpeech = false ↔
      shouldFinalize session.vad now) := by
  have hguard : (utteranceMsOf session.vad < (TURN_MAX_MS : ℚ) ∧
      (now - session.vad.lastVoiceAt < TURN_SILENCE_MS ∨
        utteranceMsOf session.vad < (TURN_MIN_MS : ℚ))) ↔
      ¬ shouldFinalize session.vad now := by
    simp only [shouldFinalize, not_or, not_and_or, not_le]
  by_cases hsf : shouldFinalize session.vad now
  · have hg : ¬ (utteranceMsOf session.vad < (TURN_MAX_MS : ℚ) ∧
        (now - session.vad.lastVoiceAt < TURN_SILENCE_MS ∨
          utteranceMsOf session.vad < (TURN_MIN_MS : ℚ))) :=
      fun hgg => (hguard.mp hgg) hsf
    have hmin : (TURN_MIN_MS : ℚ) ≤ utteranceMsOf session.vad := by
      cases hsf with
      | inl hmax =>
        have hc : ((TURN_MIN_MS : ℚ)) ≤ ((TURN_MAX_MS : ℚ)) := by
          norm_num [TURN_MIN_MS, TURN_MAX_MS]
        exact le_trans hc hmax
      | inr hp => exact hp.2
    by_cases henq : (concatInt16 session.vad.utteranceFrames).length = 0
    · have henqE : concatInt16 session.vad.utteranceFrames = [] :=
        List.length_eq_zero.mp henq
      have hres : maybeFinalizeUtterance session now =
          { session with vad := resetVad session.vad } := by
        simp [maybeFinalizeUtterance, hs, hr, hn, hg, henq, henqE]
      refine ⟨fun hnot => absurd hsf hnot, fun _ => ?_, ?_⟩
      · rw [hres, if_neg]
        intro hcontra
        exact hcontra.1 henq
      · rw [hres]
        simp [resetVad, hsf]
    · have hres : maybeFinalizeUtterance session now =
          { session with
            vad := resetVad session.vad
            turnQueue := turnQueuePush session.turnQueue
              ⟨concatInt16 session.vad.utteranceFrames, session.vad.utteranceSampleRate⟩ } := by
        have henqL : concatInt16 session.vad.utteranceFrames ≠ [] := by
          intro hh
          exact henq (by rw [hh]; rfl)
        have hminL : ¬ utteranceMsOf session.vad < (TURN_MIN_MS : ℚ) :=
          not_lt.mpr hmin
        have hg2 : ¬ (utteranceMsOf session.vad < (TURN_MAX_MS : ℚ) ∧
            now - session.vad.lastVoiceAt < TURN_SILENCE_MS) :=
          fun hh => hg ⟨hh.1, Or.inl hh.2⟩
        simp [maybeFinalizeUtterance, hs, hr, hn, hg, hg2, henq, henqL, hminL, enqueueTurn]
      refine ⟨fun hnot => absurd hsf hnot, fun _ => ?_, ?_⟩
      · rw [hres, if_pos ⟨henq, hmin⟩]
      · rw [hres]
        simp [resetVad, hsf]
  · have hg : utteranceMsOf session.vad < (TURN_MAX_MS : ℚ) ∧
        (now - session.vad.lastVoiceAt < TURN_SILENCE_MS ∨
          utteranceMsOf session.vad < (TURN_MIN_MS : ℚ)) := hguard.mpr hsf
    have hres : maybeFinalizeUtterance session now = session := by
      simp [maybeFinalizeUtterance, hs, hr, hn, hg]
    refine ⟨fun _ => hres, fun hcontra => absurd hcontra hsf, ?_⟩
    rw [hres]
    simp [hs, hsf]

/-- Witness for C1: a 625 ms utterance of 5 samples at 8 Hz followed by
2100 ms of silence finalises and enqueues the concatenated segment. -/
theorem maybeFinalizeUtterance_spec_witness :
    shouldFinalize speechVad 2200 ∧
    maybeFinalizeUtterance { baseSession with vad := speechVad } 2200 =
      { baseSession with
        vad := resetVad speechVad
        turnQueue := [⟨[1, 2, 3, 4, 5], 8⟩] } := by
  have hms : utteranceMsOf speechVad = 625 := by
    norm_num [utteranceMsOf, speechVad]
  have hsf : shouldFinalize speechVad 2200 := by
    unfold shouldFinalize
    rw [hms]
    norm_num [speechVad, TURN_MAX_MS, TURN_MIN_MS, TURN_SILENCE_MS]
  refine ⟨hsf, ?_⟩
  rw [(maybeFinalizeUtterance_spec { baseSession with vad := speechVad } 2200
    rfl (by decide) (by decide)).2.1 hsf]
  rw [if_pos]
  · rfl
  · refine ⟨by decide, ?_⟩
    show (TURN_MIN_MS : ℚ) ≤ utteranceMsOf speechVad
    rw [hms]
    norm_num [TURN_MIN_MS]

/-- C2 (amended): on a tick with a non-empty playback queue, either the
head item is already exhausted (cursor at or past its end), in which case
it is discarded and no frame is emitted on that tick, or exactly one
frame is emitted: the slice at the cursor zero-padded to exactly 480
samples; every emitted frame has exactly 480 samples, and a tick on an
empty queue emits nothing and stops the pacer. -/
theorem playbackTick_spec (item : PlaybackItem) (rest : List PlaybackItem) :
    (item.samples.length ≤ item.cursor →
      playbackTick (item :: rest) = (rest, none)) ∧
    (item.cursor < item.samples.length →
      playbackTick (item :: rest) =
        ({ item with
            cursor := min item.samples.length (item.cursor + playbackFrameSamples) } :: rest,
          some ((item.samples.drop item.cursor).take playbackFrameSamples ++
            List.replicate
              (playbackFrameSamples - (item.samples.length - item.cursor)) 0))) ∧
    (∀ frame : List Int, (playbackTick (item :: rest)).2 = some frame →
      frame.length = playbackFrameSamples) ∧
    playbackTick ([] : List PlaybackItem) = ([], none) := by
  have h480 : playbackFrameSamples = 480 := rfl
  have hdone : item.samples.length ≤ item.cursor →
      playbackTick (item :: rest) = (rest, none) := by
    intro hle
    simp only [playbackTick]
    rw [if_pos hle]
  have hemit : item.cursor < item.samples.length →
      playbackTick (item :: rest) =
        ({ item with
            cursor := min item.samples.length (item.cursor + playbackFrameSamples) } :: rest,
          some ((item.samples.drop item.cursor).take playbackFrameSamples ++
            List.replicate
              (playbackFrameSamples - (item.samples.length - item.cursor)) 0)) := by
    intro hlt
    have hnl : ¬ item.samples.length ≤ item.cursor := not_le.mpr hlt
    simp only [playbackTick]
    rw [if_neg hnl]
    congr 1
    congr 1
    have hraw : (item.samples.drop item.cursor).take
        (min item.samples.length (item.cursor + playbackFrameSamples) - item.cursor) =
        (item.samples.drop item.cursor).take playbackFrameSamples := by
      rw [List.take_eq_take]
      rw [List.length_drop]
      omega
    rw [hraw]
    unfold padToFrame
    have hlen : ((item.samples.drop item.cursor).take playbackFrameSamples).length =
        min playbackFrameSamples (item.samples.length - item.cursor) := by
      rw [List.length_take, List.length_drop]
    by_cases hc : ((item.samples.drop item.cursor).take playbackFrameSamples).length <
        playbackFrameSamples
    · rw [if_pos hc]
      rw [hlen] at hc ⊢
      congr 2
      rw [h480] at hc ⊢
      omega
    · rw [if_neg hc]
      rw [hlen] at hc
      have hz : playbackFrameSamples - (item.samples.length - item.cursor) = 0 := by
        rw [h480] at hc ⊢
        omega
      rw [hz]
      simp
  refine ⟨hdone, hemit, ?_, rfl⟩
  intro frame hf
  by_cases hle : item.samples.length ≤ item.cursor
  · rw [hdone hle] at hf
    simp at hf
  · have hlt := lt_of_not_le hle
    rw [hemit hlt] at hf
    have hfx : ((item.samples.drop item.cursor).take playbackFrameSamples ++
        List.replicate (playbackFrameSamples - (item.samples.length - item.cursor)) 0) =
        frame := Option.some.inj hf
    rw [← hfx]
    rw [List.length_append, List.length_take, List.length_drop, List.length_replicate]
    rw [h480]
    omega

set_option maxRecDepth 10000 in
/-- Witness for C2 (amended): a partially played 700-sample item emits
one frame of exactly 480 samples, and an exhausted item is discarded
without an emission. -/
theorem playbackTick_spec_witness :
    ((⟨List.replicate 700 1, 48000, 0⟩ : PlaybackItem).cursor <
      (⟨List.replicate 700 1, 48000, 0⟩ : PlaybackItem).samples.length ∧
      playbackTick [⟨List.replicate 700 1, 48000, 0⟩] =
        ([⟨List.replicate 700 1, 48000, 480⟩],
          some ((( (⟨List.replicate 700 1, 48000, 0⟩ : PlaybackItem)).samples.drop 0).take
              playbackFrameSamples ++
            List.replicate (playbackFrameSamples - (700 - 0)) 0))) ∧
    ((⟨List.replicate 700 1, 48000, 700⟩ : PlaybackItem).samples.length ≤ 700 ∧
      playbackTick [⟨List.replicate 700 1, 48000, 700⟩] = ([], none)) :=
  ⟨⟨by decide, by
      rw [(playbackTick_spec ⟨List.replicate 700 1, 48000, 0⟩ []).2.1 (by decide)]
      rfl⟩,
   ⟨by decide, (playbackTick_spec ⟨List.replicate 700 1, 48000, 700⟩ []).1 (by decide)⟩⟩

/-- Counterexample for C2 as stated: after the single frame of a queued
item has been emitted, the next tick still sees a non-empty queue but
emits no frame at all (it only discards the exhausted item), so the pacer
does not emit a frame on every tick while the queue is non-empty. -/
theorem playbackTick_missed_tick_counterexample :
    enqueueAssistantAudio [] [5] = [⟨[5], 48000, 0⟩] ∧
    (playbackTick [⟨[5], 48000, 0⟩]).1 = [⟨[5], 48000, 1⟩] ∧
    ([(⟨[5], 48000, 1⟩ : PlaybackItem)] ≠ []) ∧
    (playbackTick [⟨[5], 48000, 1⟩]).2 = none := by
  refine ⟨by decide, by decide, by decide, by decide⟩

/-- C4 (amended): a relayed event is only ever enqueued to subscribers
whose registration key string roomId ++ "::" ++ peerId equals the target
key built from (event.roomId, event.to); when no id contains the "::"
separator this pins delivery to exactly (event.roomId, event.to).  An
event whose to field is unset is delivered to no subscriber at all. -/
theorem relaySignal_targets_spec (subs : List Subscriber) (e : SignalEvent) :
    (∀ r ∈ relaySignalTargets subs e, ∃ t, e.toPeer = some t ∧ t ≠ "" ∧
      subscriberKey r.peerId r.roomId = subscriberKey t e.roomId) ∧
    (e.toPeer = none → relaySignalTargets subs e = []) := by
  constructor
  · intro r hr
    unfold relaySignalTargets at hr
    cases hto : e.toPeer with
    | none =>
      rw [hto] at hr
      simp [toIsTruthy] at hr
    | some t =>
      rw [hto] at hr
      by_cases ht : t = ""
      · subst ht
        simp [toIsTruthy] at hr
      · simp only [toIsTruthy, Option.getD_some] at hr
        rw [show (t == "") = false from beq_eq_false_iff_ne.mpr ht] at hr
        by_cases hbot : isServerBotPeer t
        · rw [hbot] at hr
          simp at hr
        · rw [Bool.eq_false_iff.mpr hbot] at hr
          simp only [Bool.not_false, Bool.and_false, if_false, Bool.not_true,
            if_true] at hr
          have hr2 : r ∈ emitTargets subs t e.roomId := by
            simpa using hr
          have hp := (List.mem_filter.mp hr2).2
          exact ⟨t, rfl, ht, eq_of_beq hp⟩
  · intro hnone
    unfold relaySignalTargets
    rw [hnone]
    rfl

/-- Witness for C4 (amended): a subscriber registered under exactly
(event.roomId, event.to) receives the event and satisfies the key
equation. -/
theorem relaySignal_targets_spec_witness :
    subW ∈ relaySignalTargets [subW] eventW ∧
    (∃ t, eventW.toPeer = some t ∧ t ≠ "" ∧
      subscriberKey subW.peerId subW.roomId = subscriberKey t eventW.roomId) :=
  ⟨by decide, (relaySignal_targets_spec [subW] eventW).1 subW (by decide)⟩

/-- Counterexample for C4 as stated: the subscriber table is keyed by the
flat string roomId ++ "::" ++ peerId, which is not injective in the pair,
so a subscriber registered under (roomId "x::y", peerId "z") receives an
event addressed to (roomId "x", to "y::z") — a (roomId, peerId) other
than (event.roomId, event.to). -/
theorem relaySignal_cross_delivery_counterexample :
    relaySignalTargets [⟨"x::y", "z", 0⟩] ⟨SignalType.chat, "alice", some "y::z", "x"⟩ =
      [⟨"x::y", "z", 0⟩] ∧
    ((⟨"x::y", "z", 0⟩ : Subscriber).roomId, (⟨"x::y", "z", 0⟩ : Subscriber).peerId) ≠
      ((⟨SignalType.chat, "alice", some "y::z", "x"⟩ : SignalEvent).roomId, "y::z") ∧
    (⟨SignalType.chat, "alice", some "y::z", "x"⟩ : SignalEvent).toPeer = some "y::z" := by
  refine ⟨by decide, by decide, rfl⟩

/-- Witness for C8: closing a populated state twice equals closing it
once, and closing the empty state is a no-op. -/
theorem closeSession_idempotent_witness :
    (closeSession "ops-room" "peer-1" (closeSession "ops-room" "peer-1" stWithSession).1 =
      ((closeSession "ops-room" "peer-1" stWithSession).1, false)) ∧
    (mapGet (⟨[], []⟩ : GlobalState).serverSessions (roomPeerKey "ops-room" "peer-1") = none ∧
      closeSession "ops-room" "peer-1" (⟨[], []⟩ : GlobalState) = ((⟨[], []⟩ : GlobalState), false)) :=
  ⟨(closeSession_idempotent stWithSession "ops-room" "peer-1").1,
   ⟨rfl, (closeSession_idempotent ⟨[], []⟩ "ops-room" "peer-1").2 rfl⟩⟩

end VoiceRealtime
